import Mathlib

/-!
Shallow embedding of the build-and-release pipeline of `gulpfile.babel.js`
(tw5-pouchdb): the version-bump algorithm, the manifest store, the startup
config check and the bundler, together with theorems settling the spec
claims about them.
-/

set_option maxRecDepth 2000

/-! ### Script configuration (top of gulpfile.babel.js) -/

/-- `const authorName = 'danielo515'`. -/
def authorName : String := "danielo515"

/-- `const pluginName = 'pouchdb'`. -/
def pluginName : String := "pouchdb"

/-- `const isIncrBuild = true`. -/
def isIncrBuild : Bool := true

/-- `const pluginNamespace = authorName + '/' + pluginName`. -/
def pluginNamespace : String := authorName ++ "/" ++ pluginName

/-- `const pluginTiddler = '$:/plugins/' + pluginNamespace`. -/
def pluginTiddler : String := "$:/plugins/" ++ pluginNamespace

/-- The manifest path `path.resolve(pluginSrc, pluginNamespace, 'plugin.info')`,
kept as the joined relative path. -/
def pluginInfoPath : String := "./src/plugins/" ++ pluginNamespace ++ "/plugin.info"

/-! ### Character/list helpers for the semver grammar -/

/-- A character allowed in a semver prerelease/build identifier: `[0-9A-Za-z-]`. -/
def isAlnumHyphen (c : Char) : Bool := c.isAlpha || c.isDigit || c = '-'

/-- Split a character list at the first occurrence of `c`; `none` when `c`
does not occur. -/
def splitFirst (c : Char) : List Char → Option (List Char × List Char)
  | [] => none
  | x :: xs =>
    if x = c then some ([], xs)
    else (splitFirst c xs).map (fun p => (x :: p.1, p.2))

/-- Split a character list on every `.` (dot-separated identifier list). -/
def splitDots : List Char → List (List Char)
  | [] => [[]]
  | x :: xs =>
    let r := splitDots xs
    if x = '.' then [] :: r
    else
      match r with
      | a :: t => (x :: a) :: t
      | [] => [[x]]

/-- Trim leading and trailing whitespace, as `String.prototype.trim` does
(node-semver calls `version.trim()` before matching). -/
def trimChars (cs : List Char) : List Char :=
  ((cs.dropWhile Char.isWhitespace).reverse.dropWhile Char.isWhitespace).reverse

/-- Decimal value of a digit list. -/
def decimalValue (ds : List Char) : Nat :=
  ds.foldl (fun a c => a * 10 + (c.toNat - 48)) 0

/-- Parse a semver numeric identifier (`0|[1-9]\d*`: digits, no leading zero). -/
def parseNumericIdent (cs : List Char) : Option Nat :=
  if cs.isEmpty then none
  else if !cs.all Char.isDigit then none
  else if cs.length > 1 && cs.head? = some '0' then none
  else some (decimalValue cs)

/-- A valid semver prerelease identifier:
`0|[1-9]\d*|\d*[a-zA-Z-][a-zA-Z0-9-]*`. -/
def validPrereleaseIdent (cs : List Char) : Bool :=
  !cs.isEmpty && cs.all isAlnumHyphen &&
    (if cs.all Char.isDigit then cs.length = 1 || cs.head? ≠ some '0' else true)

/-- A valid semver build identifier: `[0-9a-zA-Z-]+`. -/
def validBuildIdent (cs : List Char) : Bool :=
  !cs.isEmpty && cs.all isAlnumHyphen

/-! ### The SemVer value and parser (`new SemVer(version)` of node-semver) -/

/-- The parsed fields of a semantic version, as node-semver exposes them
(`v.major`, `v.minor`, `v.patch`, `v.prerelease`, `v.build`). -/
structure SemVer where
  major : Nat
  minor : Nat
  patch : Nat
  prerelease : List String
  build : List String
deriving Repr, DecidableEq

/-- `new SemVer(version)`: trim, allow an optional leading `v`, then match
`MAJOR.MINOR.PATCH[-PRERELEASE][+BUILD]`.  `none` models the thrown
`Invalid Version` TypeError. -/
def parseSemVer (s : String) : Option SemVer :=
  let cs0 := trimChars s.toList
  let cs := match cs0 with
    | 'v' :: rest => rest
    | _ => cs0
  let coreBuild : List Char × Option (List Char) :=
    match splitFirst '+' cs with
    | some (a, b) => (a, some b)
    | none => (cs, none)
  let mainPre : List Char × Option (List Char) :=
    match splitFirst '-' coreBuild.1 with
    | some (a, b) => (a, some b)
    | none => (coreBuild.1, none)
  match splitDots mainPre.1 with
  | [ma, mi, pa] =>
    match parseNumericIdent ma, parseNumericIdent mi, parseNumericIdent pa with
    | some major, some minor, some patch =>
      let pre : Option (List String) :=
        match mainPre.2 with
        | none => some []
        | some p =>
          let ids := splitDots p
          if ids.all validPrereleaseIdent then some (ids.map List.asString) else none
      let bld : Option (List String) :=
        match coreBuild.2 with
        | none => some []
        | some b =>
          let ids := splitDots b
          if ids.all validBuildIdent then some (ids.map List.asString) else none
      match pre, bld with
      | some prerelease, some build =>
        some { major := major, minor := minor, patch := patch,
               prerelease := prerelease, build := build }
      | _, _ => none
    | _, _, _ => none
  | _ => none

/-! ### JavaScript `parseInt` (the build-counter read) -/

/-- Hex digit test for the `0x` branch of `parseInt`. -/
def isHexDigit (c : Char) : Bool :=
  c.isDigit || ('a' ≤ c && c ≤ 'f') || ('A' ≤ c && c ≤ 'F')

/-- Hex value of a hex digit list. -/
def hexValue (ds : List Char) : Nat :=
  ds.foldl (fun a c =>
    a * 16 +
      (if c.isDigit then c.toNat - 48
       else if 'a' ≤ c && c ≤ 'f' then c.toNat - 87
       else c.toNat - 55)) 0

/-- ECMAScript `parseInt(string)` with no radix: skip leading whitespace, an
optional sign, auto-detect a `0x`/`0X` hex prefix, and read the longest
digit prefix; `none` models `NaN`. -/
def jsParseInt (s : String) : Option Int :=
  let cs := s.toList.dropWhile Char.isWhitespace
  let signed : Int × List Char :=
    match cs with
    | '-' :: rest => (-1, rest)
    | '+' :: rest => (1, rest)
    | _ => (1, cs)
  match signed.2 with
  | '0' :: x :: rest =>
    if x = 'x' || x = 'X' then
      let hs := rest.takeWhile isHexDigit
      if hs.isEmpty then none else some (signed.1 * (hexValue hs : Int))
    else
      some (signed.1 * (decimalValue (('0' :: x :: rest).takeWhile Char.isDigit) : Int))
  | _ =>
    let ds := signed.2.takeWhile Char.isDigit
    if ds.isEmpty then none else some (signed.1 * (decimalValue ds : Int))

/-! ### The version derivation (`bump version` task, lines 132-136) -/

/-- `'+' + (parseInt(v.build[0] || 0) + 1)` when `isIncrBuild`, else `''`.
`v.build[0] || 0` falls back to the number `0` (coerced by `parseInt` to
`"0"`) when the build list is empty; `NaN + 1` is `NaN` and stringifies
as `"NaN"`. -/
def buildSuffix (v : SemVer) (incr : Bool) : String :=
  if incr then
    let b0 : String :=
      match v.build with
      | [] => "0"
      | x :: _ => if x = "" then "0" else x
    "+" ++
      (match jsParseInt b0 with
       | some n => toString (n + 1)
       | none => "NaN")
  else ""

/-- `argv.mode && argv.mode !== 'master' ? '-' + argv.mode : ''`; `none`
and the empty string are falsy. -/
def modeLabel (mode : Option String) : String :=
  match mode with
  | none => ""
  | some m => if m = "" || m = "master" then "" else "-" ++ m

/-- `` `${v.major}.${v.minor}.${v.patch}${mode}` `` — the value the code
names `version`, written to package.json. -/
def versionBase (v : SemVer) (mode : Option String) : String :=
  toString v.major ++ "." ++ toString v.minor ++ "." ++ toString v.patch
    ++ modeLabel mode

/-- `version + build` — the value written into `pluginInfo.version`. -/
def deriveVersionCore (v : SemVer) (mode : Option String) (incr : Bool) : String :=
  versionBase v mode ++ buildSuffix v incr

/-- The full derivation from the current version string: parse with
`new SemVer` (failure propagates) and rebuild. -/
def deriveVersion (cur : String) (mode : Option String) (incr : Bool) : Option String :=
  (parseSemVer cur).map (fun v => deriveVersionCore v mode incr)

/-! ### JSON values and the manifest object -/

/-- A JSON value; a manifest object is its field list in insertion order,
as JavaScript preserves it for string keys. -/
inductive Json where
  | null
  | bool (b : Bool)
  | num (n : Int)
  | str (s : String)
  | arr (elems : List Json)
  | obj (fields : List (String × Json))

/-- Property read `o.k` on a JSON object. -/
def lookupField : List (String × Json) → String → Option Json
  | [], _ => none
  | (k, v) :: rest, key => if k = key then some v else lookupField rest key

/-- Property assignment `o.k = v`: overwrite in place when the key exists
(keeping its position), append otherwise. -/
def setField : List (String × Json) → String → Json → List (String × Json)
  | [], key, v => [(key, v)]
  | (k, w) :: rest, key, v =>
    if k = key then (key, v) :: rest else (k, w) :: setField rest key v

/-! ### The `bump version` task (lines 129-147) -/

/-- What the bump task produces: the new `pluginInfo` object written back to
`plugin.info`, the version string it holds, and the version string piped
into package.json by `bump({ key: 'version', version: version })`. -/
structure BumpResult where
  infoVersion : String
  pkgVersion : String
  newInfo : List (String × Json)

/-- The `bump version` task body: parse `pluginInfo.version` with
`new SemVer` (a throw is `none`), build `version` and `build`, assign
`pluginInfo.version = version + build` and `pluginInfo.released = now`,
and send the build-less `version` to package.json. -/
def bumpVersionTask (info : List (String × Json)) (mode : Option String)
    (now : String) : Option BumpResult :=
  match lookupField info "version" with
  | some (Json.str cur) =>
    match parseSemVer cur with
    | some v =>
      let base := versionBase v mode
      let newV := base ++ buildSuffix v isIncrBuild
      some { infoVersion := newV
           , pkgVersion := base
           , newInfo := setField (setField info "version" (Json.str newV))
                          "released" (Json.str now) }
    | none => none
  | _ => none

/-! ### The `bundle the plugin` task (lines 222-256) -/

/-- `JSON.stringify([ plugin ], null, 2)`: the artifact root is the plugin
record wrapped in a one-element array, unconditionally. -/
def bundleArtifact (plugin : Json) : Json := Json.arr [plugin]

/-- `const outName = pluginName + '_' + pluginInfo.version + '.json'`. -/
def bundleOutName (version : String) : String :=
  pluginName ++ "_" ++ version ++ ".json"

/-- The bundle task as far as the artifact file is concerned: read
`pluginInfo.version` from the manifest object currently in memory, name the
file from it and wrap the loaded plugin record in an array. -/
def bundleTask (info : List (String × Json)) (plugin : Json) :
    Option (String × Json) :=
  match lookupField info "version" with
  | some (Json.str v) => some (bundleOutName v, bundleArtifact plugin)
  | _ => none

/-! ### Startup preprocessing and the config sanity check (lines 89-106) -/

/-- An observable event of the gulpfile run: a file read, a file write, or a
task body running. -/
inductive Event where
  | fsRead (path : String)
  | fsWrite (path : String)
  | stageRun (name : String)
deriving DecidableEq

/-- `pluginTiddler !== pluginInfo.title` is false exactly when `title` is
the string `pluginTiddler`. -/
def titleMatches (info : List (String × Json)) : Bool :=
  match lookupField info "title" with
  | some (Json.str t) => t = pluginTiddler
  | _ => false

/-- The file I/O the module performs before the sanity check:
`fs.readFileSync(pluginInfoPath, 'utf8')` on line 93. -/
def startupTrace : List Event := [Event.fsRead pluginInfoPath]

/-- Loading the gulpfile: read and parse `plugin.info`, run the sanity
check; on mismatch the thrown error aborts before any task registers or
runs, otherwise the requested stages run.  Returns the event trace up to
the throw (or the whole run) and the error, if any. -/
def constructPipeline (info : List (String × Json)) (stages : List String) :
    List Event × Option String :=
  if titleMatches info then
    (startupTrace ++ stages.map Event.stageRun, none)
  else
    (startupTrace, some "Gulp settings do not match the plugin.info")

/-! ### File-system model for the manifest write (line 138) -/

/-- Primitive file-system steps relevant to atomicity: an in-place write and
a rename. -/
inductive FsOp where
  | write (path content : String)
  | rename (src dst : String)

/-- `true` on a rename step. -/
def isRenameOp : FsOp → Bool
  | FsOp.write _ _ => false
  | FsOp.rename _ _ => true

/-- A file system as a path-content association list. -/
def setFile : List (String × String) → String → String → List (String × String)
  | [], p, c => [(p, c)]
  | (q, d) :: rest, p, c =>
    if q = p then (p, c) :: rest else (q, d) :: setFile rest p c

/-- Read a file's content. -/
def readFile : List (String × String) → String → Option String
  | [], _ => none
  | (q, d) :: rest, p => if q = p then some d else readFile rest p

/-- Remove a file. -/
def removeFile (fs : List (String × String)) (p : String) :
    List (String × String) :=
  fs.filter (fun e => e.1 ≠ p)

/-- Apply one file-system step. -/
def applyOp (fs : List (String × String)) : FsOp → List (String × String)
  | FsOp.write p c => setFile fs p c
  | FsOp.rename src dst =>
    match readFile fs src with
    | some c => setFile (removeFile fs src) dst c
    | none => fs

/-- The first `k` characters of a string, the content a write leaves behind
when interrupted after `k` characters. -/
def filePrefix (c : String) (k : Nat) : String :=
  List.asString (c.toList.take k)

/-- Run a step list but fail during step `i` after `k` characters: the
preceding steps complete, an interrupted write leaves a truncated file
(the target was opened with truncation), an interrupted rename is atomic
and leaves the old state, and nothing later runs. -/
def runOpsInterrupted (fs : List (String × String)) :
    List FsOp → Nat → Nat → List (String × String)
  | [], _, _ => fs
  | op :: _, 0, k =>
    match op with
    | FsOp.write p c => setFile fs p (filePrefix c k)
    | FsOp.rename _ _ => fs
  | op :: rest, i + 1, k => runOpsInterrupted (applyOp fs op) rest i k

/-- The file-system steps of the manifest save,
`fs.writeFileSync(pluginInfoPath, JSON.stringify(pluginInfo, null, 2))`:
a single direct write to the target path. -/
def saveManifestOps (content : String) : List FsOp :=
  [FsOp.write pluginInfoPath content]

/-! ### Concrete example values used by counterexamples and witnesses -/

/-- A well-formed manifest object matching the configured namespace, holding
version `1.2.5+3`. -/
def exampleManifest : List (String × Json) :=
  [("title", Json.str pluginTiddler), ("version", Json.str "1.2.5+3")]

/-- A manifest whose `title` does not match `pluginTiddler`. -/
def mismatchManifest : List (String × Json) :=
  [("title", Json.str "$:/plugins/other/plugin"),
   ("version", Json.str "1.2.5+3")]

/-- A file system holding a previously valid manifest at the manifest path. -/
def exampleFs : List (String × String) := [(pluginInfoPath, "OLDMANIFEST")]

/-! ### Helper lemmas -/

theorem lookupField_setField_same (l : List (String × Json)) (k : String)
    (v : Json) : lookupField (setField l k v) k = some v := by
  induction l with
  | nil => simp [setField, lookupField]
  | cons e rest ih =>
    by_cases h : e.1 = k
    · simp [setField, h, lookupField]
    · simp [setField, h, lookupField, ih]

theorem lookupField_setField_ne (l : List (String × Json)) (k k' : String)
    (v : Json) (h : k' ≠ k) :
    lookupField (setField l k v) k' = lookupField l k' := by
  induction l with
  | nil => simp [setField, lookupField, Ne.symm h]
  | cons e rest ih =>
    by_cases he : e.1 = k
    · obtain ⟨e1, e2⟩ := e
      simp only at he
      subst he
      simp [setField, lookupField, h, Ne.symm h]
    · simp [setField, he, lookupField, ih]

theorem readFile_setFile_same (fs : List (String × String)) (p c : String) :
    readFile (setFile fs p c) p = some c := by
  induction fs with
  | nil => simp [setFile, readFile]
  | cons e rest ih =>
    by_cases h : e.1 = p
    · simp [setFile, h, readFile]
    · simp [setFile, h, readFile, ih]

theorem takeWhile_append_of_all {p : Char → Bool} {l₁ l₂ : List Char}
    (h : l₁.all p = true) :
    (l₁ ++ l₂).takeWhile p = l₁ ++ l₂.takeWhile p := by
  induction l₁ with
  | nil => simp
  | cons a t ih =>
    simp only [List.all_cons, Bool.and_eq_true] at h
    simp [List.takeWhile_cons, h.1, ih h.2]

theorem digitChar_isDigit : ∀ m, m < 10 → (Nat.digitChar m).isDigit = true := by
  decide

theorem toDigitsCore_digits :
    ∀ (fuel n : Nat) (ds : List Char), (∀ c ∈ ds, c.isDigit = true) →
      ∀ c ∈ Nat.toDigitsCore 10 fuel n ds, c.isDigit = true := by
  intro fuel
  induction fuel with
  | zero => intro n ds hds c hc; exact hds c hc
  | succ f ih =>
    intro n ds hds c hc
    simp only [Nat.toDigitsCore] at hc
    have hd : ∀ x ∈ Nat.digitChar (n % 10) :: ds, x.isDigit = true := by
      intro x hx
      rcases List.mem_cons.mp hx with rfl | hx
      · exact digitChar_isDigit _ (Nat.mod_lt _ (by omega))
      · exact hds x hx
    by_cases hz : n / 10 = 0
    · rw [if_pos hz] at hc
      exact hd c hc
    · rw [if_neg hz] at hc
      exact ih _ _ hd c hc

theorem natToString_digits (n : Nat) :
    ∀ c ∈ (toString n).data, c.isDigit = true := by
  intro c hc
  have : (toString n).data = Nat.toDigitsCore 10 (n + 1) n [] := rfl
  rw [this] at hc
  exact toDigitsCore_digits (n + 1) n [] (by simp) c hc

/-- A character of the `major.minor.patch` core: a digit or a dot. -/
def isDigitOrDot (c : Char) : Bool := c.isDigit || c == '.'

theorem versionBase_none_digitOrDot (v : SemVer) :
    (versionBase v none).data.all isDigitOrDot = true := by
  have hd : ∀ n : Nat, (toString n).data.all isDigitOrDot = true := by
    intro n
    rw [List.all_eq_true]
    intro c hc
    simp [isDigitOrDot, natToString_digits n c hc]
  show (toString v.major ++ "." ++ toString v.minor ++ "." ++ toString v.patch
      ++ modeLabel none).data.all isDigitOrDot = true
  simp only [String.data_append, List.all_append, hd, Bool.true_and,
    Bool.and_true]
  decide

theorem isDigitOrDot_not_plus (c : Char) (h : isDigitOrDot c = true) :
    (!(c == '+')) = true := by
  by_cases hc : (c == '+') = true
  · have : c = '+' := eq_of_beq hc
    subst this
    simp [isDigitOrDot] at h
  · simp [hc]

theorem isDigitOrDot_not_dash (c : Char) (h : isDigitOrDot c = true) :
    (c == '-') = false := by
  by_cases hc : (c == '-') = true
  · have : c = '-' := eq_of_beq hc
    subst this
    simp [isDigitOrDot] at h
  · simpa using hc

/-- Whether a version string carries a prerelease label: a `-` occurring
before the first `+`. -/
def hasDashBeforePlus (s : String) : Bool :=
  (s.data.takeWhile (fun c => !(c == '+'))).any (fun c => c == '-')

/-! ### Claim theorems -/

/-- C1: the version derivation satisfies the spec's three test vectors:
`deriveVersion("1.2.5+3", "develop", true) = "1.2.5-develop+4"`,
`deriveVersion("1.2.5", "master", false) = "1.2.5"`, and
`deriveVersion("2.0.0+9", null, true) = "2.0.0+10"`. -/
theorem deriveVersion_spec_test_vectors :
    deriveVersion "1.2.5+3" (some "develop") true = some "1.2.5-develop+4" ∧
    deriveVersion "1.2.5" (some "master") false = some "1.2.5" ∧
    deriveVersion "2.0.0+9" none true = some "2.0.0+10" :=
  ⟨by decide, by decide, by decide⟩

/-- C2 counterexample: on a current version whose build part is non-numeric
(`"1.2.5+abc"`), the derivation does not treat the counter as 0: with
autoIncrement true it produces build suffix `+NaN`, not `+1`, because
`parseInt("abc")` is `NaN` and `NaN + 1` is `NaN`. -/
theorem deriveVersion_nonNumeric_build_counterexample :
    deriveVersion "1.2.5+abc" none true = some "1.2.5+NaN" ∧
    deriveVersion "1.2.5+abc" none true ≠ some "1.2.5+1" :=
  ⟨by decide, by decide⟩

/-- C2 (amended): when the build counter is absent, the derivation treats it
as 0 (via the `|| 0` fallback) and with autoIncrement true the result is
the base version with build suffix `+1`; a wholly non-numeric counter
instead propagates as `NaN`, still without error. -/
theorem deriveVersion_absent_build_counter (cur : String) (v : SemVer)
    (mode : Option String) (hp : parseSemVer cur = some v)
    (hb : v.build = []) :
    deriveVersion cur mode true = some (versionBase v mode ++ "+1") := by
  have hbs : buildSuffix v true = "+1" := by
    simp only [buildSuffix, hb, if_true]
    rfl
  simp [deriveVersion, hp, deriveVersionCore, hbs]

/-- C2 witness: the amended theorem at `"1.2.5"` with no mode. -/
theorem deriveVersion_absent_build_counter_witness :
    parseSemVer "1.2.5" = some ⟨1, 2, 5, [], []⟩ ∧
    (⟨1, 2, 5, [], []⟩ : SemVer).build = [] ∧
    deriveVersion "1.2.5" none true
      = some (versionBase ⟨1, 2, 5, [], []⟩ none ++ "+1") :=
  ⟨by decide, rfl,
    deriveVersion_absent_build_counter "1.2.5" ⟨1, 2, 5, [], []⟩ none
      (by decide) rfl⟩

/-- C8: deriving with mode `"master"` gives exactly the same result as
deriving with mode absent (`null`, and likewise the empty string), for
every current version string and every autoIncrement flag: the literal
`"master"` is suppressed by the `argv.mode !== 'master'` guard. -/
theorem deriveVersion_master_equals_absent (cur : String) (incr : Bool) :
    deriveVersion cur (some "master") incr = deriveVersion cur none incr ∧
    deriveVersion cur (some "") incr = deriveVersion cur none incr := by
  have h1 : modeLabel (some "master") = modeLabel none := by decide
  have h2 : modeLabel (some "") = modeLabel none := by decide
  constructor <;>
    cases hp : parseSemVer cur <;>
      simp [deriveVersion, deriveVersionCore, versionBase, h1, h2]

/-- C10: the derivation discards any prerelease label carried by the current
version — the output is independent of the parsed prerelease field, so the
label in the output comes solely from the `mode` argument; with mode
absent or `"master"` the result carries no label (no `-` before the first
`+`). -/
theorem deriveVersion_discards_prerelease (v : SemVer) (pre : List String)
    (mode : Option String) (incr : Bool) :
    deriveVersionCore { v with prerelease := pre } mode incr
      = deriveVersionCore { v with prerelease := [] } mode incr ∧
    ((mode = none ∨ mode = some "master") →
      hasDashBeforePlus (deriveVersionCore v mode incr) = false) := by
  constructor
  · rfl
  · intro hm
    have hml : modeLabel mode = "" := by
      rcases hm with rfl | rfl <;> decide
    have hvb : versionBase v mode = versionBase v none := by
      unfold versionBase
      rw [hml]
      rfl
    unfold deriveVersionCore
    rw [hvb]
    have hall := versionBase_none_digitOrDot v
    rw [List.all_eq_true] at hall
    have hnp : (versionBase v none).data.all (fun c => !(c == '+')) = true := by
      rw [List.all_eq_true]
      intro c hc
      exact isDigitOrDot_not_plus c (hall c hc)
    have hnd : (versionBase v none).data.any (fun c => c == '-') = false := by
      rw [List.any_eq_false]
      intro c hc
      simpa using isDigitOrDot_not_dash c (hall c hc)
    rw [hasDashBeforePlus, String.data_append, takeWhile_append_of_all hnp,
      List.any_append, hnd, Bool.false_or]
    cases incr with
    | false =>
      show (("" : String).data.takeWhile _).any _ = false
      rfl
    | true =>
      obtain ⟨t, ht⟩ : ∃ t, buildSuffix v true = "+" ++ t := ⟨_, rfl⟩
      rw [ht, String.data_append]
      show ((('+' :: t.data).takeWhile fun c => !(c == '+')).any
        fun c => c == '-') = false
      rw [List.takeWhile_cons]
      simp

/-- C10 witness: the prerelease label `develop` of the current version is
discarded, and with mode absent the result has no label. -/
theorem deriveVersion_discards_prerelease_witness :
    deriveVersionCore ⟨1, 2, 5, ["develop"], ["3"]⟩ none true
      = deriveVersionCore ⟨1, 2, 5, [], ["3"]⟩ none true ∧
    hasDashBeforePlus (deriveVersionCore ⟨1, 2, 5, ["develop"], ["3"]⟩
      none true) = false :=
  ⟨(deriveVersion_discards_prerelease ⟨1, 2, 5, [], ["3"]⟩ ["develop"]
      none true).1,
   (deriveVersion_discards_prerelease ⟨1, 2, 5, ["develop"], ["3"]⟩ []
      none true).2 (Or.inl rfl)⟩

/-- Inversion of a successful run of the bump task: the stored version
parsed, and the results are the rebuilt version strings and the doubly
updated manifest object. -/
theorem bumpVersionTask_inversion (info : List (String × Json))
    (mode : Option String) (now : String) (r : BumpResult)
    (h : bumpVersionTask info mode now = some r) :
    ∃ cur v, lookupField info "version" = some (Json.str cur) ∧
      parseSemVer cur = some v ∧
      r.pkgVersion = versionBase v mode ∧
      r.infoVersion = versionBase v mode ++ buildSuffix v true ∧
      r.newInfo = setField (setField info "version" (Json.str r.infoVersion))
        "released" (Json.str now) := by
  unfold bumpVersionTask at h
  split at h
  · rename_i cur heq
    split at h
    · rename_i v hp
      simp only [Option.some.injEq] at h
      subst h
      exact ⟨cur, v, heq, hp, rfl, rfl, rfl⟩
    · exact Option.noConfusion h
  · exact Option.noConfusion h

/-- C3 counterexample: bumping a manifest holding version `1.2.5+3` (no
mode) writes `1.2.5+4` into plugin.info but `1.2.5` into package.json —
the two files do not receive the same version. -/
theorem bump_pkg_info_version_counterexample :
    ((bumpVersionTask exampleManifest none "now").map
        (fun r => r.infoVersion) = some "1.2.5+4") ∧
    ((bumpVersionTask exampleManifest none "now").map
        (fun r => r.pkgVersion) = some "1.2.5") ∧
    ("1.2.5+4" : String) ≠ "1.2.5" :=
  ⟨by decide, by decide, by decide⟩

/-- C3 (amended): the bump operation updates both files in one operation,
but package.json receives the version without the build suffix: the
plugin.info version is always the package.json version extended by a
`+<counter>` suffix (auto-increment is enabled), so the two are never
equal. -/
theorem bump_pkg_version_lacks_build_suffix (info : List (String × Json))
    (mode : Option String) (now : String) (r : BumpResult)
    (h : bumpVersionTask info mode now = some r) :
    (∃ s, r.infoVersion = r.pkgVersion ++ "+" ++ s) ∧
    r.infoVersion ≠ r.pkgVersion := by
  obtain ⟨cur, v, hl, hp, hpkg, hinfo, -⟩ :=
    bumpVersionTask_inversion info mode now r h
  obtain ⟨t, ht⟩ : ∃ t, buildSuffix v true = "+" ++ t := ⟨_, rfl⟩
  constructor
  · refine ⟨t, ?_⟩
    rw [hinfo, hpkg, ht]
    exact (String.append_assoc _ _ _).symm
  · rw [hinfo, hpkg, ht]
    intro heq
    have hlen := congrArg String.length heq
    have h1 : ("+" : String).length = 1 := rfl
    simp only [String.length_append, h1] at hlen
    omega

/-- The bump result on `exampleManifest` with timestamp `"Sat"`. -/
def exampleBumpResult : BumpResult :=
  { infoVersion := "1.2.5+4"
  , pkgVersion := "1.2.5"
  , newInfo := [("title", Json.str pluginTiddler),
                ("version", Json.str "1.2.5+4"),
                ("released", Json.str "Sat")] }

/-- C3 witness: the amended theorem at the example manifest. -/
theorem bump_pkg_version_lacks_build_suffix_witness :
    (∃ s, exampleBumpResult.infoVersion
        = exampleBumpResult.pkgVersion ++ "+" ++ s) ∧
    exampleBumpResult.infoVersion ≠ exampleBumpResult.pkgVersion :=
  bump_pkg_version_lacks_build_suffix exampleManifest none "Sat"
    exampleBumpResult rfl

/-- C9: the bump operation changes only the `version` and `released` fields
of the manifest object it writes back: every other field is preserved
verbatim, and `released` is set to the current timestamp on every bump. -/
theorem bump_frame (info : List (String × Json)) (mode : Option String)
    (now : String) (r : BumpResult) (k : String)
    (h : bumpVersionTask info mode now = some r)
    (hk1 : k ≠ "version") (hk2 : k ≠ "released") :
    lookupField r.newInfo k = lookupField info k ∧
    lookupField r.newInfo "released" = some (Json.str now) := by
  obtain ⟨cur, v, hl, hp, hpkg, hinfo, hnew⟩ :=
    bumpVersionTask_inversion info mode now r h
  constructor
  · rw [hnew, lookupField_setField_ne _ _ _ _ hk2,
      lookupField_setField_ne _ _ _ _ hk1]
  · rw [hnew, lookupField_setField_same]

/-- C9 witness: at the example manifest, the `title` field survives the bump
unchanged and `released` holds the supplied timestamp. -/
theorem bump_frame_witness :
    lookupField exampleBumpResult.newInfo "title"
      = lookupField exampleManifest "title" ∧
    lookupField exampleBumpResult.newInfo "released"
      = some (Json.str "Sat") :=
  bump_frame exampleManifest none "Sat" exampleBumpResult "title" rfl
    (by decide) (by decide)

/-- C6: the bundled artifact is unconditionally an array at the JSON root,
containing the plugin record, of length exactly 1 (hence at least 1). -/
theorem bundle_array_wrapping (plugin : Json) :
    ∃ elems, bundleArtifact plugin = Json.arr elems ∧ plugin ∈ elems ∧
      1 ≤ elems.length ∧ elems.length = 1 :=
  ⟨[plugin], rfl, List.mem_singleton.mpr rfl, by simp, rfl⟩

/-- C7: after a successful bump, bundling names the artifact
`<pluginName>_<version>.json` with the post-bump version currently held by
the manifest object. -/
theorem bundle_name_embeds_post_bump_version (info : List (String × Json))
    (mode : Option String) (now : String) (r : BumpResult) (plugin : Json)
    (h : bumpVersionTask info mode now = some r) :
    bundleTask r.newInfo plugin
      = some (pluginName ++ "_" ++ r.infoVersion ++ ".json",
          Json.arr [plugin]) := by
  obtain ⟨cur, v, hl, hp, hpkg, hinfo, hnew⟩ :=
    bumpVersionTask_inversion info mode now r h
  have hv : lookupField r.newInfo "version" = some (Json.str r.infoVersion) := by
    rw [hnew,
      lookupField_setField_ne _ _ _ _
        (by decide : ("version" : String) ≠ "released"),
      lookupField_setField_same]
  unfold bundleTask
  rw [hv]
  rfl

/-- C7 witness: bundling after the example bump names the artifact from the
post-bump version `1.2.5+4`. -/
theorem bundle_name_embeds_post_bump_version_witness :
    bundleTask exampleBumpResult.newInfo Json.null
      = some (pluginName ++ "_" ++ exampleBumpResult.infoVersion ++ ".json",
          Json.arr [Json.null]) :=
  bundle_name_embeds_post_bump_version exampleManifest none "Sat"
    exampleBumpResult Json.null rfl

/-- C4 counterexample: the manifest save is a single direct write; a write
interrupted after 3 characters leaves `"NEW"` at the manifest path, not
the previously persisted `"OLDMANIFEST"` — the prior file is corrupted. -/
theorem manifest_save_counterexample :
    readFile exampleFs pluginInfoPath = some "OLDMANIFEST" ∧
    readFile (runOpsInterrupted exampleFs (saveManifestOps "NEWMANIFESTDATA")
        0 3) pluginInfoPath = some "NEW" ∧
    some ("NEW" : String) ≠ some "OLDMANIFEST" :=
  ⟨by decide, by decide, by decide⟩

/-- C4 (amended): the manifest save performs no rename step — it is a single
direct overwrite of the target path — and a write interrupted after `k`
characters leaves the `k`-character prefix of the new content at the
manifest path, whatever was stored there before. -/
theorem manifest_save_not_atomic (c : String) :
    (saveManifestOps c).all (fun op => !isRenameOp op) = true ∧
    ∀ (fs : List (String × String)) (k : Nat),
      readFile (runOpsInterrupted fs (saveManifestOps c) 0 k) pluginInfoPath
        = some (filePrefix c k) := by
  refine ⟨rfl, ?_⟩
  intro fs k
  exact readFile_setFile_same fs pluginInfoPath (filePrefix c k)

/-- An event that is neither a file write nor a stage execution. -/
def isBenignEvent : Event → Bool
  | Event.fsRead _ => true
  | Event.fsWrite _ => false
  | Event.stageRun _ => false

/-- C5 counterexample: on a mismatching manifest the error is raised, but
the trace up to the throw already contains a file read (of the manifest
itself, line 93) — the check does not precede all file I/O. -/
theorem config_check_io_counterexample :
    (constructPipeline mismatchManifest ["bump version"]).2.isSome = true ∧
    Event.fsRead pluginInfoPath
      ∈ (constructPipeline mismatchManifest ["bump version"]).1 :=
  ⟨by decide, by decide⟩

/-- C5 (amended): whenever the manifest's title differs from the identifier
derived from the configured author and plugin name, loading the gulpfile
raises the mismatch error before any stage runs and before any file write
— the only prior file I/O is the read of the manifest itself; conversely,
when they match, no such error is raised. -/
theorem config_check_aborts_before_stages (info : List (String × Json))
    (stages : List String) :
    (titleMatches info = false →
      (constructPipeline info stages).2.isSome = true ∧
      (constructPipeline info stages).1.all isBenignEvent = true) ∧
    (titleMatches info = true →
      (constructPipeline info stages).2 = none) := by
  constructor
  · intro h
    unfold constructPipeline
    rw [h]
    simp [startupTrace, isBenignEvent]
  · intro h
    unfold constructPipeline
    rw [h]
    simp

/-- A manifest whose `title` matches the configured namespace. -/
def matchManifest : List (String × Json) :=
  [("title", Json.str pluginTiddler)]

/-- C5 witness: the amended theorem at a mismatching and at a matching
manifest. -/
theorem config_check_aborts_before_stages_witness :
    ((constructPipeline mismatchManifest ["bump version"]).2.isSome = true ∧
      (constructPipeline mismatchManifest
        ["bump version"]).1.all isBenignEvent = true) ∧
    (constructPipeline matchManifest ["bump version"]).2 = none :=
  ⟨(config_check_aborts_before_stages mismatchManifest ["bump version"]).1
      (by decide),
   (config_check_aborts_before_stages matchManifest ["bump version"]).2
      (by decide)⟩
